import Mathlib

/-!
Shallow embedding of the duplicate-permission-set finder
(src/data_classes.py and src/duplicate_finder.py).

Modelling conventions:
* Python strings are `String`; optional strings are `Option String` and the
  Python truthiness test `if s:` on an optional string is `optStrTruthy`.
* Python `float` similarity scores are modelled as `ℚ`.  The source compares
  `len(intersection) / len(union)` with the literal `0.9`; for quotients of
  the small natural numbers involved, IEEE double division and comparison
  against the double nearest to 0.9 agree with exact rational comparison
  against 9/10, so the rational model is faithful.
* A Python `set` of grants is a `Finset` over the grant type (the derived
  structural `DecidableEq` coincides with the per-class `__eq__` methods,
  which is proved below).
* `list(someSet)` has an unspecified, implementation-dependent enumeration
  order in Python; it is modelled by an oracle `setToList` parameter
  constrained by `ValidSetToList`.
* Python `sorted` is a stable sort; it is modelled by `List.mergeSort`
  (whose merge is left-biased, hence stable) with the corresponding
  comparison.
-/

namespace PermsetFinder

/-- The fifteen string literals of `ENTITY_TYPES` in src/data_classes.py. -/
def ENTITY_TYPES : List String :=
  ["ApexClass", "ApexPage", "BotDefinition", "ConnectedApplication", "CustomEntityDefinition",
   "CustomPermission", "EmailRoutingAddress", "ExternalClientApplication", "ExternalCredentialParameter",
   "FlowDefinition", "MessagingChannel", "OrgWideEmailAddress", "ServiceProvider", "StandardInvocableActionType",
   "TabSet"]

/-- Closed enumeration behind the `ENTITY_TYPES` Literal type. -/
inductive EntityType where
  | ApexClass
  | ApexPage
  | BotDefinition
  | ConnectedApplication
  | CustomEntityDefinition
  | CustomPermission
  | EmailRoutingAddress
  | ExternalClientApplication
  | ExternalCredentialParameter
  | FlowDefinition
  | MessagingChannel
  | OrgWideEmailAddress
  | ServiceProvider
  | StandardInvocableActionType
  | TabSet
deriving DecidableEq

/-- The string literal denoted by each `ENTITY_TYPES` member. -/
def entityTypeName : EntityType → String
  | .ApexClass => "ApexClass"
  | .ApexPage => "ApexPage"
  | .BotDefinition => "BotDefinition"
  | .ConnectedApplication => "ConnectedApplication"
  | .CustomEntityDefinition => "CustomEntityDefinition"
  | .CustomPermission => "CustomPermission"
  | .EmailRoutingAddress => "EmailRoutingAddress"
  | .ExternalClientApplication => "ExternalClientApplication"
  | .ExternalCredentialParameter => "ExternalCredentialParameter"
  | .FlowDefinition => "FlowDefinition"
  | .MessagingChannel => "MessagingChannel"
  | .OrgWideEmailAddress => "OrgWideEmailAddress"
  | .ServiceProvider => "ServiceProvider"
  | .StandardInvocableActionType => "StandardInvocableActionType"
  | .TabSet => "TabSet"

/-- The `TAB_VISIBILITY` Literal of src/data_classes.py. -/
inductive TabVisibility where
  | DefaultOff
  | DefaultOn
deriving DecidableEq

/-- String literal denoted by each `TAB_VISIBILITY` member. -/
def tabVisibilityName : TabVisibility → String
  | .DefaultOff => "DefaultOff"
  | .DefaultOn => "DefaultOn"

/-- The `ALL_PERMS_TYPE` union of src/data_classes.py: the five grant
classes `SystemPermission`, `ObjectPermissions`, `FieldPermissions`,
`SetupEntityAccess` and `PermissionSetTabSetting`, with their fields.
The `perms` fields are ordered lists of permission-name strings, exactly as
in the source (where they are `list[str]`). -/
inductive ALL_PERMS_TYPE where
  | SystemPermission (name : String)
  | ObjectPermissions (sobject_type : String) (perms : List String)
  | FieldPermissions (sobject_type : String) (sobject_field : String) (perms : List String)
  | SetupEntityAccess (setup_entity_type : EntityType) (setup_entity_id : String)
  | PermissionSetTabSetting (name : String) (visibility : TabVisibility)
deriving DecidableEq

/-- The Python class name of a grant, as produced by
`x.__class__.__name__` in the accessors of `JaccardDifference`. -/
def typeName : ALL_PERMS_TYPE → String
  | .SystemPermission _ => "SystemPermission"
  | .ObjectPermissions _ _ => "ObjectPermissions"
  | .FieldPermissions _ _ _ => "FieldPermissions"
  | .SetupEntityAccess _ _ => "SetupEntityAccess"
  | .PermissionSetTabSetting _ _ => "PermissionSetTabSetting"

/-- The `__eq__` contract of the five grant classes, modelled from
src/data_classes.py: for `SystemPermission`, `SetupEntityAccess` and
`PermissionSetTabSetting` it is the dataclass-generated field comparison;
for `ObjectPermissions` and `FieldPermissions` it is the explicit `__eq__`
comparing `(sobject_type, tuple(perms))` resp.
`(sobject_type, sobject_field, tuple(perms))`, so `perms` order matters.
Values of different classes always compare unequal (each `__eq__` returns
`NotImplemented` for a foreign class and Python then falls back to
identity, which is false for distinct objects). -/
def grantEq : ALL_PERMS_TYPE → ALL_PERMS_TYPE → Bool
  | .SystemPermission n1, .SystemPermission n2 => n1 == n2
  | .ObjectPermissions t1 p1, .ObjectPermissions t2 p2 => t1 == t2 && p1 == p2
  | .FieldPermissions t1 f1 p1, .FieldPermissions t2 f2 p2 =>
      t1 == t2 && f1 == f2 && p1 == p2
  | .SetupEntityAccess e1 i1, .SetupEntityAccess e2 i2 => e1 == e2 && i1 == i2
  | .PermissionSetTabSetting n1 v1, .PermissionSetTabSetting n2 v2 => n1 == n2 && v1 == v2
  | _, _ => false

/-- The tuple fed to Python `hash(...)` by each grant class's `__hash__`,
flattened to a list of strings and tagged with the class name: the same
data that `grantEq` compares. -/
def grantKey : ALL_PERMS_TYPE → List String
  | .SystemPermission n => ["SystemPermission", n]
  | .ObjectPermissions t p => ["ObjectPermissions", t] ++ p
  | .FieldPermissions t f p => ["FieldPermissions", t, f] ++ p
  | .SetupEntityAccess e i => ["SetupEntityAccess", entityTypeName e, i]
  | .PermissionSetTabSetting n v => ["PermissionSetTabSetting", n, tabVisibilityName v]

/-- The `__hash__` of a grant: Python's opaque tuple hash is modelled as an
arbitrary function `h` of the key tuple, exactly as each class computes
`hash(<field tuple>)` over the same fields its `__eq__` compares. -/
def grantHash (h : List String → Nat) (g : ALL_PERMS_TYPE) : Nat :=
  h (grantKey g)

/-- Python truthiness of an optional string: `if s:` is true iff the value
is present and non-empty. -/
def optStrTruthy : Option String → Bool
  | none => false
  | some s => s ≠ ""

/-- The `PermissionSet` dataclass of src/data_classes.py. -/
structure PermissionSet where
  id : String
  name : String
  label : String
  user_license : Option String
  permission_set_license : Option String
  system_perms : List ALL_PERMS_TYPE
  object_perms : List ALL_PERMS_TYPE
  field_perms : List ALL_PERMS_TYPE
  setup_entity_access : List ALL_PERMS_TYPE
  permission_set_tab_setting : List ALL_PERMS_TYPE
deriving DecidableEq, Inhabited

/-- `PermissionSet.get_displayable_label` from src/data_classes.py:
`prefix` is the license annotation (user license first, else permission set
license, else empty) and the result is the f-string `f"{label} {prefix}"`. -/
def PermissionSet.get_displayable_label (ps : PermissionSet) : String :=
  let pfx : String :=
    if optStrTruthy ps.user_license then
      "(user_license=" ++ ps.user_license.getD "" ++ ")"
    else if optStrTruthy ps.permission_set_license then
      "(permset_license=" ++ ps.permission_set_license.getD "" ++ ")"
    else ""
  ps.label ++ " " ++ pfx

/-- `PermissionSet.get_all_perms`: the five category lists concatenated in
source order (system, object, field, setup-entity-access, tab-setting). -/
def PermissionSet.get_all_perms (ps : PermissionSet) : List ALL_PERMS_TYPE :=
  ps.system_perms ++ ps.object_perms ++ ps.field_perms ++
    ps.setup_entity_access ++ ps.permission_set_tab_setting

/-- The `JaccardDifference` dataclass. -/
structure JaccardDifference where
  permset1 : PermissionSet
  permset2 : PermissionSet
  similarity : ℚ
deriving DecidableEq, Inhabited

/-- `DuplicateFinder.SIMILARITY_THRESHOLD` (the literal `0.9`). -/
def SIMILARITY_THRESHOLD : ℚ := 9 / 10

/-- The Python set `set(ps.get_all_perms())` built in `jaccard` and in the
`JaccardDifference` accessors. -/
def grantSet (ps : PermissionSet) : Finset ALL_PERMS_TYPE :=
  ps.get_all_perms.toFinset

/-- The similarity value `len(intersection) / len(union)` computed in
`DuplicateFinder.jaccard` for one pair. -/
def jaccardSimilarity (p q : PermissionSet) : ℚ :=
  (((grantSet p ∩ grantSet q).card : ℚ)) / (((grantSet p ∪ grantSet q).card : ℚ))

/-- One iteration of the inner loop of `DuplicateFinder.jaccard`
(src/duplicate_finder.py lines 20-29): what, if anything, is appended to
`duplicates` for the pair `(p, q)`.  The first branch is
`if union: ... if similarity >= SIMILARITY_THRESHOLD: append`; the second
is `if not union and not intersection: append(..., 1.0)` (it can only fire
when the first `if` found `union` empty, hence the nesting). -/
def pairResult (p q : PermissionSet) : Option JaccardDifference :=
  let intersection := grantSet p ∩ grantSet q
  let union := grantSet p ∪ grantSet q
  if union ≠ ∅ then
    if SIMILARITY_THRESHOLD ≤ jaccardSimilarity p q then
      some ⟨p, q, jaccardSimilarity p q⟩
    else none
  else
    if union = ∅ ∧ intersection = ∅ then some ⟨p, q, 1⟩ else none

/-- The `duplicates` list accumulated by the two nested loops of
`DuplicateFinder.jaccard` before the final sort: pairs `(i, j)` with
`i < j` enumerated with `i` ascending and `j` ascending within each `i`. -/
def pairList (permsets : List PermissionSet) : List JaccardDifference :=
  (List.range permsets.length).flatMap (fun i =>
    (List.range permsets.length).filterMap (fun j =>
      if i < j then pairResult (permsets.getD i default) (permsets.getD j default)
      else none))

/-- Comparison used by `sorted(duplicates, key=lambda t: t.similarity,
reverse=True)`: a stable sort placing higher similarity first. -/
def simDescLe (a b : JaccardDifference) : Bool :=
  decide (b.similarity ≤ a.similarity)

/-- `DuplicateFinder.jaccard` as a function of the `permsets` list the
finder was constructed with: accumulate per-pair results, then stably sort
by similarity descending. -/
def jaccard (permsets : List PermissionSet) : List JaccardDifference :=
  (pairList permsets).mergeSort simDescLe

/-- Lexicographic comparison of character lists by code point, i.e. the
comparison Python's `sorted` applies to `str` keys. -/
def charsLe : List Char → List Char → Bool
  | [], _ => true
  | _ :: _, [] => false
  | c :: cs, d :: ds =>
    if c.toNat < d.toNat then true
    else if d.toNat < c.toNat then false
    else charsLe cs ds

/-- Python string comparison (code-point lexicographic `<=`). -/
def strLe (a b : String) : Bool :=
  charsLe a.data b.data

/-- Comparison used by `sorted(..., key=lambda x: x.__class__.__name__)`
in the `JaccardDifference` accessors. -/
def nameLe (a b : ALL_PERMS_TYPE) : Bool :=
  strLe (typeName a) (typeName b)

/-- The stable sort by class name applied by each accessor. -/
def sortByTypeName (l : List ALL_PERMS_TYPE) : List ALL_PERMS_TYPE :=
  l.mergeSort nameLe

/-- `l` is a possible result of CPython's `list(s)`: it enumerates the
elements of `s`, each exactly once.  CPython guarantees nothing more; the
order depends on the elements' hash values, which are salted per
interpreter run for strings.  The accessors of `JaccardDifference` take
the enumeration as an oracle function `setToList`, constrained by `EnumOf`
at the sets on which it is used. -/
def EnumOf (l : List ALL_PERMS_TYPE) (s : Finset ALL_PERMS_TYPE) : Prop :=
  l.Nodup ∧ l.toFinset = s

/-- `JaccardDifference.common_perms`: rebuild the two grant sets, intersect
them, enumerate the intersection (via the `setToList` oracle) and stably
sort the enumeration by class name. -/
def common_perms (setToList : Finset ALL_PERMS_TYPE → List ALL_PERMS_TYPE)
    (d : JaccardDifference) : List ALL_PERMS_TYPE :=
  let perms1 := grantSet d.permset1
  let perms2 := grantSet d.permset2
  sortByTypeName (setToList (perms1 ∩ perms2))

/-- `JaccardDifference.permset1_unique_perms`: as `common_perms` but with
the set difference `perms1 - perms2`. -/
def permset1_unique_perms (setToList : Finset ALL_PERMS_TYPE → List ALL_PERMS_TYPE)
    (d : JaccardDifference) : List ALL_PERMS_TYPE :=
  let perms1 := grantSet d.permset1
  let perms2 := grantSet d.permset2
  sortByTypeName (setToList (perms1 \ perms2))

/-- `JaccardDifference.permset2_unique_perms`: as `common_perms` but with
the set difference `perms2 - perms1`. -/
def permset2_unique_perms (setToList : Finset ALL_PERMS_TYPE → List ALL_PERMS_TYPE)
    (d : JaccardDifference) : List ALL_PERMS_TYPE :=
  let perms1 := grantSet d.permset1
  let perms2 := grantSet d.permset2
  sortByTypeName (setToList (perms2 \ perms1))

/-! ### Concrete fixtures used by witnesses and counterexamples. -/

/-- A permission set holding only system permissions named by `sys`. -/
def mkSysPS (i : String) (sys : List String) : PermissionSet :=
  ⟨i, i, i, none, none, sys.map ALL_PERMS_TYPE.SystemPermission, [], [], [], []⟩

/-- Ten system permissions. -/
def psTen : PermissionSet :=
  mkSysPS "idTen" ["p1", "p2", "p3", "p4", "p5", "p6", "p7", "p8", "p9", "p10"]

/-- Nine of the ten system permissions of `psTen`: the pair
`(psTen, psNine)` sits exactly at the 0.9 threshold. -/
def psNine : PermissionSet :=
  mkSysPS "idNine" ["p1", "p2", "p3", "p4", "p5", "p6", "p7", "p8", "p9"]

/-- A permission set with no grants at all. -/
def psEmptyA : PermissionSet := mkSysPS "idEmptyA" []

/-- A second permission set with no grants at all. -/
def psEmptyB : PermissionSet := mkSysPS "idEmptyB" []

/-- Two system permissions named "a" and "b". -/
def psAB1 : PermissionSet := mkSysPS "idAB1" ["a", "b"]

/-- The same two system permissions under another id. -/
def psAB2 : PermissionSet := mkSysPS "idAB2" ["a", "b"]

/-- A concrete duplicate report over `psAB1` and `psAB2`. -/
def dPair : JaccardDifference := ⟨psAB1, psAB2, 1⟩

/-- A permission set with label "X" and no license fields. -/
def psNoLicense : PermissionSet := ⟨"idX", "X", "X", none, none, [], [], [], [], []⟩

/-- A permission set carrying both license fields. -/
def psBothLic : PermissionSet :=
  ⟨"idL", "L", "L", some "UL", some "PSL", [], [], [], [], []⟩

/-- The grant `SystemPermission("a")`. -/
def gA : ALL_PERMS_TYPE := .SystemPermission "a"

/-- The grant `SystemPermission("b")`. -/
def gB : ALL_PERMS_TYPE := .SystemPermission "b"

/-- One possible set-enumeration oracle: it lists `{gA, gB}` as
`[gA, gB]`. -/
def enumFwd : Finset ALL_PERMS_TYPE → List ALL_PERMS_TYPE := fun _ => [gA, gB]

/-- Another possible set-enumeration oracle for the same set, as another
interpreter run (with another hash salt) could produce: `[gB, gA]`. -/
def enumRev : Finset ALL_PERMS_TYPE → List ALL_PERMS_TYPE := fun _ => [gB, gA]

/-- An enumeration oracle valid on every set the accessors of `dPair`
touch: the intersection `{gA, gB}` and the two empty differences. -/
def enumW : Finset ALL_PERMS_TYPE → List ALL_PERMS_TYPE := fun s =>
  if s = (grantSet psAB1 ∩ grantSet psAB2) then [gA, gB] else []

/-! ### Helper lemmas about the comparators and the stable sort. -/

lemma charsLe_total : ∀ xs ys : List Char, charsLe xs ys = true ∨ charsLe ys xs = true := by
  intro xs
  induction xs with
  | nil => intro ys; left; rfl
  | cons c cs ih =>
    intro ys
    cases ys with
    | nil => right; rfl
    | cons d ds =>
      by_cases hcd : c.toNat < d.toNat
      · left; simp [charsLe, hcd]
      · by_cases hdc : d.toNat < c.toNat
        · right; simp [charsLe, hdc]
        · rcases ih ds with h | h
          · left; simp [charsLe, hcd, hdc, h]
          · right; simp [charsLe, hcd, hdc, h]

lemma charsLe_trans :
    ∀ xs ys zs : List Char,
      charsLe xs ys = true → charsLe ys zs = true → charsLe xs zs = true := by
  intro xs
  induction xs with
  | nil => intro ys zs _ _; rfl
  | cons c cs ih =>
    intro ys zs h1 h2
    cases ys with
    | nil => simp [charsLe] at h1
    | cons d ds =>
      cases zs with
      | nil => simp [charsLe] at h2
      | cons e es =>
        simp only [charsLe] at h1 h2 ⊢
        split_ifs at h1 h2 ⊢ with hcd hdc hde hed hce hec <;>
          first
            | rfl
            | omega
            | (exact ih ds es h1 h2)

lemma nameLe_total : ∀ a b : ALL_PERMS_TYPE, (nameLe a b || nameLe b a) = true := by
  intro a b
  rcases charsLe_total (typeName a).data (typeName b).data with h | h <;>
    simp [nameLe, strLe, h]

lemma nameLe_trans :
    ∀ a b c : ALL_PERMS_TYPE, nameLe a b = true → nameLe b c = true → nameLe a c = true := by
  intro a b c h1 h2
  exact charsLe_trans _ _ _ h1 h2

lemma simDescLe_total : ∀ a b : JaccardDifference, (simDescLe a b || simDescLe b a) = true := by
  intro a b
  rcases le_total b.similarity a.similarity with h | h <;> simp [simDescLe, h]

lemma simDescLe_trans :
    ∀ a b c : JaccardDifference,
      simDescLe a b = true → simDescLe b c = true → simDescLe a c = true := by
  intro a b c h1 h2
  simp only [simDescLe, decide_eq_true_eq] at h1 h2 ⊢
  exact le_trans h2 h1

lemma filter_and_self (p : α → Bool) : (fun a => p a && p a) = p := by
  funext a
  cases p a <;> rfl

/-- A stable sort does not disturb the relative order within a class of
elements that tie under the comparison: filtering the sorted list by such a
class gives the same list as filtering the input. -/
lemma mergeSort_filter_eq (le : α → α → Bool)
    (htrans : ∀ a b c, le a b = true → le b c = true → le a c = true)
    (htotal : ∀ a b, (le a b || le b a) = true)
    (p : α → Bool) (l : List α)
    (hp : ∀ a ∈ l, ∀ b ∈ l, p a = true → p b = true → le a b = true) :
    (l.mergeSort le).filter p = l.filter p := by
  have hpair : (l.filter p).Pairwise (fun a b => le a b = true) := by
    apply List.pairwise_of_forall_mem_list
    intro a ha b hb
    exact hp a (List.mem_of_mem_filter ha) b (List.mem_of_mem_filter hb)
      (List.of_mem_filter ha) (List.of_mem_filter hb)
  have hsub : (l.filter p).Sublist (l.mergeSort le) :=
    List.mergeSort_stable htrans htotal hpair (List.filter_sublist l)
  have h2 : (l.filter p).Sublist ((l.mergeSort le).filter p) := by
    have h3 := List.Sublist.filter p hsub
    rwa [List.filter_filter, filter_and_self] at h3
  have hperm : ((l.mergeSort le).filter p).Perm (l.filter p) :=
    (List.mergeSort_perm l le).filter p
  exact (h2.eq_of_length hperm.length_eq.symm).symm

/-- A stable sort leaves a list alone when every two of its elements tie
under the comparison. -/
lemma mergeSort_eq_self_of_ties (le : α → α → Bool)
    (htrans : ∀ a b c, le a b = true → le b c = true → le a c = true)
    (htotal : ∀ a b, (le a b || le b a) = true)
    (l : List α) (h : ∀ a ∈ l, ∀ b ∈ l, le a b = true) :
    l.mergeSort le = l := by
  have h1 := mergeSort_filter_eq le htrans htotal (fun _ => true) l
    (fun a ha b hb _ _ => h a ha b hb)
  rwa [List.filter_true, List.filter_true] at h1

lemma mem_pairList {ps : List PermissionSet} {i j : Nat} {d : JaccardDifference}
    (hij : i < j) (hj : j < ps.length)
    (h : pairResult (ps.getD i default) (ps.getD j default) = some d) :
    d ∈ pairList ps := by
  unfold pairList
  rw [List.mem_flatMap]
  refine ⟨i, List.mem_range.mpr (lt_trans hij hj), ?_⟩
  rw [List.mem_filterMap]
  exact ⟨j, List.mem_range.mpr hj, by rw [if_pos hij]; exact h⟩

lemma mem_jaccard_iff {ps : List PermissionSet} {d : JaccardDifference} :
    d ∈ jaccard ps ↔ d ∈ pairList ps :=
  (List.mergeSort_perm (pairList ps) simDescLe).mem_iff

lemma sortByTypeName_perm (l : List ALL_PERMS_TYPE) : (sortByTypeName l).Perm l :=
  List.mergeSort_perm l nameLe

lemma sortByTypeName_toFinset (l : List ALL_PERMS_TYPE) :
    (sortByTypeName l).toFinset = l.toFinset :=
  List.toFinset_eq_of_perm _ _ (sortByTypeName_perm l)

lemma sortByTypeName_sorted (l : List ALL_PERMS_TYPE) :
    (sortByTypeName l).Pairwise (fun a b => strLe (typeName a) (typeName b) = true) :=
  List.sorted_mergeSort nameLe_trans nameLe_total l

lemma sortByTypeName_eq_self_of_ties (l : List ALL_PERMS_TYPE)
    (h : ∀ a ∈ l, ∀ b ∈ l, nameLe a b = true) :
    sortByTypeName l = l :=
  mergeSort_eq_self_of_ties nameLe nameLe_trans nameLe_total l h

lemma toFinset_pair_card {α : Type} [DecidableEq α] {a b : α} (h : a ≠ b) :
    ([a, b] : List α).toFinset.card = 2 := by
  rw [show ([a, b] : List α).toFinset = {a, b} from by
    simp [List.toFinset_cons, List.toFinset_nil]]
  exact Finset.card_pair h

lemma common_perms_eq (f : Finset ALL_PERMS_TYPE → List ALL_PERMS_TYPE)
    (d : JaccardDifference) :
    common_perms f d = sortByTypeName (f (grantSet d.permset1 ∩ grantSet d.permset2)) := rfl

lemma permset1_unique_perms_eq (f : Finset ALL_PERMS_TYPE → List ALL_PERMS_TYPE)
    (d : JaccardDifference) :
    permset1_unique_perms f d =
      sortByTypeName (f (grantSet d.permset1 \ grantSet d.permset2)) := rfl

lemma permset2_unique_perms_eq (f : Finset ALL_PERMS_TYPE → List ALL_PERMS_TYPE)
    (d : JaccardDifference) :
    permset2_unique_perms f d =
      sortByTypeName (f (grantSet d.permset2 \ grantSet d.permset1)) := rfl

lemma common_perms_toFinset (f : Finset ALL_PERMS_TYPE → List ALL_PERMS_TYPE)
    (d : JaccardDifference)
    (hc : EnumOf (f (grantSet d.permset1 ∩ grantSet d.permset2))
      (grantSet d.permset1 ∩ grantSet d.permset2)) :
    (common_perms f d).toFinset = grantSet d.permset1 ∩ grantSet d.permset2 := by
  rw [common_perms_eq, sortByTypeName_toFinset, hc.2]

lemma permset1_unique_perms_toFinset (f : Finset ALL_PERMS_TYPE → List ALL_PERMS_TYPE)
    (d : JaccardDifference)
    (h1 : EnumOf (f (grantSet d.permset1 \ grantSet d.permset2))
      (grantSet d.permset1 \ grantSet d.permset2)) :
    (permset1_unique_perms f d).toFinset = grantSet d.permset1 \ grantSet d.permset2 := by
  rw [permset1_unique_perms_eq, sortByTypeName_toFinset, h1.2]

lemma permset2_unique_perms_toFinset (f : Finset ALL_PERMS_TYPE → List ALL_PERMS_TYPE)
    (d : JaccardDifference)
    (h2 : EnumOf (f (grantSet d.permset2 \ grantSet d.permset1))
      (grantSet d.permset2 \ grantSet d.permset1)) :
    (permset2_unique_perms f d).toFinset = grantSet d.permset2 \ grantSet d.permset1 := by
  rw [permset2_unique_perms_eq, sortByTypeName_toFinset, h2.2]

/-! ### The claims. -/

/-- C1: for every positions `i < j` of the input whose two grant sets have
a non-empty union, the jaccard pass emits a `JaccardDifference` for that
pair iff `|intersection| / |union|` is at least the 0.9 threshold, the
emitted similarity equals that ratio, and the emitted entry is in the
returned list; a pair strictly below the threshold produces nothing.  In
particular a pair at exactly 0.9 is included and a pair below 0.9 is
excluded. -/
theorem c1_jaccard_threshold (ps : List PermissionSet) (i j : Nat)
    (hij : i < j) (hj : j < ps.length)
    (hu : grantSet (ps.getD i default) ∪ grantSet (ps.getD j default) ≠ ∅) :
    (SIMILARITY_THRESHOLD ≤ jaccardSimilarity (ps.getD i default) (ps.getD j default) →
      pairResult (ps.getD i default) (ps.getD j default) =
        some ⟨ps.getD i default, ps.getD j default,
          jaccardSimilarity (ps.getD i default) (ps.getD j default)⟩ ∧
      (⟨ps.getD i default, ps.getD j default,
          jaccardSimilarity (ps.getD i default) (ps.getD j default)⟩ : JaccardDifference) ∈
        jaccard ps) ∧
    (jaccardSimilarity (ps.getD i default) (ps.getD j default) < SIMILARITY_THRESHOLD →
      pairResult (ps.getD i default) (ps.getD j default) = none) := by
  constructor
  · intro h
    have hres : pairResult (ps.getD i default) (ps.getD j default) =
        some ⟨ps.getD i default, ps.getD j default,
          jaccardSimilarity (ps.getD i default) (ps.getD j default)⟩ := by
      simp only [pairResult]
      rw [if_pos hu, if_pos h]
    exact ⟨hres, mem_jaccard_iff.mpr (mem_pairList hij hj hres)⟩
  · intro h
    simp only [pairResult]
    rw [if_pos hu, if_neg (not_le.mpr h)]

/-- C1 witness: the pair `(psTen, psNine)` shares 9 of 10 grants, so its
similarity is exactly the 0.9 threshold and it is emitted. -/
theorem c1_witness :
    grantSet psTen ∪ grantSet psNine ≠ ∅ ∧
    jaccardSimilarity psTen psNine = 9 / 10 ∧
    (⟨psTen, psNine, jaccardSimilarity psTen psNine⟩ : JaccardDifference) ∈
      jaccard [psTen, psNine] := by
  have hsim : jaccardSimilarity psTen psNine = 9 / 10 := by
    unfold jaccardSimilarity
    rw [show (grantSet psTen ∩ grantSet psNine).card = 9 from by decide,
        show (grantSet psTen ∪ grantSet psNine).card = 10 from by decide]
    norm_num
  refine ⟨by decide, hsim, ?_⟩
  have h := c1_jaccard_threshold [psTen, psNine] 0 1 (by decide) (by decide) (by decide)
  have hle : SIMILARITY_THRESHOLD ≤ jaccardSimilarity psTen psNine := by
    rw [hsim]
    norm_num [SIMILARITY_THRESHOLD]
  exact (h.1 hle).2

/-- C2: a pair of bundles whose flattened grant sets are both empty is
emitted with similarity exactly 1 and appears in the returned list. -/
theorem c2_empty_bundles (ps : List PermissionSet) (i j : Nat)
    (hij : i < j) (hj : j < ps.length)
    (h1 : grantSet (ps.getD i default) = ∅) (h2 : grantSet (ps.getD j default) = ∅) :
    pairResult (ps.getD i default) (ps.getD j default) =
      some ⟨ps.getD i default, ps.getD j default, 1⟩ ∧
    (⟨ps.getD i default, ps.getD j default, 1⟩ : JaccardDifference) ∈ jaccard ps := by
  have hres : pairResult (ps.getD i default) (ps.getD j default) =
      some ⟨ps.getD i default, ps.getD j default, 1⟩ := by
    simp only [pairResult]
    rw [h1, h2]
    simp
  exact ⟨hres, mem_jaccard_iff.mpr (mem_pairList hij hj hres)⟩

/-- C2 witness: two grantless bundles are reported as duplicates with
similarity 1. -/
theorem c2_witness :
    grantSet psEmptyA = ∅ ∧ grantSet psEmptyB = ∅ ∧
    (⟨psEmptyA, psEmptyB, 1⟩ : JaccardDifference) ∈ jaccard [psEmptyA, psEmptyB] := by
  refine ⟨by decide, by decide, ?_⟩
  exact (c2_empty_bundles [psEmptyA, psEmptyB] 0 1 (by decide) (by decide)
    (by decide) (by decide)).2

/-- C3: for the two list-valued grant variants, the operations list is
compared as an ordered sequence: for any target type (and field name), two
grants carrying the same operations in a different order are unequal both
under the modelled `__eq__` and propositionally, and the two of them form a
two-element set, so they do not collapse in intersection/union counts. -/
theorem c3_operations_order (t fn : String) (l1 l2 : List String)
    (_hperm : l1.Perm l2) (hne : l1 ≠ l2) :
    (grantEq (.ObjectPermissions t l1) (.ObjectPermissions t l2) = false ∧
      ALL_PERMS_TYPE.ObjectPermissions t l1 ≠ ALL_PERMS_TYPE.ObjectPermissions t l2 ∧
      ([ALL_PERMS_TYPE.ObjectPermissions t l1,
        ALL_PERMS_TYPE.ObjectPermissions t l2] : List ALL_PERMS_TYPE).toFinset.card = 2) ∧
    (grantEq (.FieldPermissions t fn l1) (.FieldPermissions t fn l2) = false ∧
      ALL_PERMS_TYPE.FieldPermissions t fn l1 ≠ ALL_PERMS_TYPE.FieldPermissions t fn l2 ∧
      ([ALL_PERMS_TYPE.FieldPermissions t fn l1,
        ALL_PERMS_TYPE.FieldPermissions t fn l2] : List ALL_PERMS_TYPE).toFinset.card = 2) := by
  have hObj : ALL_PERMS_TYPE.ObjectPermissions t l1 ≠ ALL_PERMS_TYPE.ObjectPermissions t l2 :=
    fun h => hne ((ALL_PERMS_TYPE.ObjectPermissions.injEq _ _ _ _).mp h).2
  have hFld : ALL_PERMS_TYPE.FieldPermissions t fn l1 ≠ ALL_PERMS_TYPE.FieldPermissions t fn l2 :=
    fun h => hne ((ALL_PERMS_TYPE.FieldPermissions.injEq _ _ _ _ _ _).mp h).2.2
  refine ⟨⟨?_, hObj, toFinset_pair_card hObj⟩, ⟨?_, hFld, toFinset_pair_card hFld⟩⟩
  · simp [grantEq, hne]
  · simp [grantEq, hne]

/-- C3 witness: `ObjectPermissions("Account", [read, edit])` and its
reversed-operations twin count as two distinct set elements. -/
theorem c3_witness :
    (["PermissionsRead", "PermissionsEdit"] : List String).Perm
      ["PermissionsEdit", "PermissionsRead"] ∧
    (["PermissionsRead", "PermissionsEdit"] : List String) ≠
      ["PermissionsEdit", "PermissionsRead"] ∧
    ([ALL_PERMS_TYPE.ObjectPermissions "Account" ["PermissionsRead", "PermissionsEdit"],
      ALL_PERMS_TYPE.ObjectPermissions "Account" ["PermissionsEdit", "PermissionsRead"]] :
        List ALL_PERMS_TYPE).toFinset.card = 2 := by
  refine ⟨by decide, by decide, ?_⟩
  exact ((c3_operations_order "Account" "Name"
    ["PermissionsRead", "PermissionsEdit"] ["PermissionsEdit", "PermissionsRead"]
    (by decide) (by decide)).1).2.2

/-- C4: `jaccard` returns the emitted pairs sorted by similarity
descending, and the sort is stable: for every similarity value, the
entries carrying it appear in exactly the order the pair enumeration
produced them. -/
theorem c4_sorted_stable (ps : List PermissionSet) :
    (jaccard ps).Pairwise (fun a b => b.similarity ≤ a.similarity) ∧
    ∀ v : ℚ, (jaccard ps).filter (fun d => decide (d.similarity = v)) =
      (pairList ps).filter (fun d => decide (d.similarity = v)) := by
  constructor
  · have h := List.sorted_mergeSort simDescLe_trans simDescLe_total (pairList ps)
    exact List.Pairwise.imp (fun hab => of_decide_eq_true hab) h
  · intro v
    apply mergeSort_filter_eq simDescLe simDescLe_trans simDescLe_total
    intro a _ b _ ha hb
    have ha2 : a.similarity = v := of_decide_eq_true ha
    have hb2 : b.similarity = v := of_decide_eq_true hb
    simp [simDescLe, ha2, hb2]

/-- C5: two grants are equal under the modelled `__eq__` iff they are the
same variant with the same field values (propositional equality of the
embedded union type), and the hash — an arbitrary function applied to the
same field tuple that `__eq__` compares — agrees on equal grants. -/
theorem c5_eq_hash_consistent (g1 g2 : ALL_PERMS_TYPE) :
    (grantEq g1 g2 = true ↔ g1 = g2) ∧
    ∀ hf : List String → Nat, g1 = g2 → grantHash hf g1 = grantHash hf g2 := by
  constructor
  · cases g1 <;> cases g2 <;> simp [grantEq, and_assoc]
  · intro hf h
    rw [h]

/-- C5 witness: instantiated at the grant `SystemPermission("a")` and the
length function as hash. -/
theorem c5_witness :
    gA = gA ∧ grantHash List.length gA = grantHash List.length gA :=
  ⟨rfl, (c5_eq_hash_consistent gA gA).2 List.length rfl⟩

/-- C6 counterexample: the accessors sort only by class name, so the order
of same-class grants is whatever order the set enumeration produced; two
valid enumerations of the same intersection (as two interpreter runs with
different string-hash salts can produce) yield different output lists for
equal inputs, refuting run-to-run determinism. -/
theorem c6_counterexample :
    EnumOf (enumFwd (grantSet dPair.permset1 ∩ grantSet dPair.permset2))
      (grantSet dPair.permset1 ∩ grantSet dPair.permset2) ∧
    EnumOf (enumRev (grantSet dPair.permset1 ∩ grantSet dPair.permset2))
      (grantSet dPair.permset1 ∩ grantSet dPair.permset2) ∧
    common_perms enumFwd dPair ≠ common_perms enumRev dPair := by
  refine ⟨⟨by decide, by decide⟩, ⟨by decide, by decide⟩, ?_⟩
  have h1 : common_perms enumFwd dPair = [gA, gB] := by
    rw [common_perms_eq]
    exact sortByTypeName_eq_self_of_ties _ (by decide)
  have h2 : common_perms enumRev dPair = [gB, gA] := by
    rw [common_perms_eq]
    exact sortByTypeName_eq_self_of_ties _ (by decide)
  rw [h1, h2]
  decide

/-- C6 (amended): each accessor recomputes its set intersection or
difference from the two bundles' flattened grants and returns an
enumeration of exactly that set, stably sorted by the grant variant's type
name ascending — but within one variant the order is the set enumeration
order, which CPython does not fix across runs, so the output is
deterministic only up to that enumeration. -/
theorem c6_accessors_sorted (f : Finset ALL_PERMS_TYPE → List ALL_PERMS_TYPE)
    (d : JaccardDifference)
    (hc : EnumOf (f (grantSet d.permset1 ∩ grantSet d.permset2))
      (grantSet d.permset1 ∩ grantSet d.permset2))
    (h1 : EnumOf (f (grantSet d.permset1 \ grantSet d.permset2))
      (grantSet d.permset1 \ grantSet d.permset2))
    (h2 : EnumOf (f (grantSet d.permset2 \ grantSet d.permset1))
      (grantSet d.permset2 \ grantSet d.permset1)) :
    ((common_perms f d).Pairwise (fun a b => strLe (typeName a) (typeName b) = true) ∧
      (common_perms f d).toFinset = grantSet d.permset1 ∩ grantSet d.permset2 ∧
      (common_perms f d).Nodup) ∧
    ((permset1_unique_perms f d).Pairwise
        (fun a b => strLe (typeName a) (typeName b) = true) ∧
      (permset1_unique_perms f d).toFinset = grantSet d.permset1 \ grantSet d.permset2 ∧
      (permset1_unique_perms f d).Nodup) ∧
    ((permset2_unique_perms f d).Pairwise
        (fun a b => strLe (typeName a) (typeName b) = true) ∧
      (permset2_unique_perms f d).toFinset = grantSet d.permset2 \ grantSet d.permset1 ∧
      (permset2_unique_perms f d).Nodup) := by
  refine ⟨⟨?_, common_perms_toFinset f d hc, ?_⟩,
    ⟨?_, permset1_unique_perms_toFinset f d h1, ?_⟩,
    ⟨?_, permset2_unique_perms_toFinset f d h2, ?_⟩⟩
  · rw [common_perms_eq]
    exact sortByTypeName_sorted _
  · rw [common_perms_eq]
    exact (sortByTypeName_perm _).nodup_iff.mpr hc.1
  · rw [permset1_unique_perms_eq]
    exact sortByTypeName_sorted _
  · rw [permset1_unique_perms_eq]
    exact (sortByTypeName_perm _).nodup_iff.mpr h1.1
  · rw [permset2_unique_perms_eq]
    exact sortByTypeName_sorted _
  · rw [permset2_unique_perms_eq]
    exact (sortByTypeName_perm _).nodup_iff.mpr h2.1

/-- C6 witness: a concrete valid enumeration oracle for `dPair`, with the
common-grants accessor reproducing exactly the intersection set. -/
theorem c6_witness :
    EnumOf (enumW (grantSet dPair.permset1 ∩ grantSet dPair.permset2))
      (grantSet dPair.permset1 ∩ grantSet dPair.permset2) ∧
    (common_perms enumW dPair).toFinset =
      grantSet dPair.permset1 ∩ grantSet dPair.permset2 := by
  have hc : EnumOf (enumW (grantSet dPair.permset1 ∩ grantSet dPair.permset2))
      (grantSet dPair.permset1 ∩ grantSet dPair.permset2) := ⟨by decide, by decide⟩
  have h1 : EnumOf (enumW (grantSet dPair.permset1 \ grantSet dPair.permset2))
      (grantSet dPair.permset1 \ grantSet dPair.permset2) := ⟨by decide, by decide⟩
  have h2 : EnumOf (enumW (grantSet dPair.permset2 \ grantSet dPair.permset1))
      (grantSet dPair.permset2 \ grantSet dPair.permset1) := ⟨by decide, by decide⟩
  exact ⟨hc, ((c6_accessors_sorted enumW dPair hc h1 h2).1).2.1⟩

/-- C7 counterexample: the `ENTITY_TYPES` enumeration of the source has
fifteen members, not fourteen. -/
theorem c7_counterexample : ENTITY_TYPES.length = 15 ∧ ENTITY_TYPES.length ≠ 14 := by
  decide

/-- C7 (amended): the entity-type field ranges over a fixed closed
enumeration of exactly fifteen distinct categories, and every constructible
grant carries one of those fifteen values. -/
theorem c7_entity_types_fifteen :
    ENTITY_TYPES.length = 15 ∧ ENTITY_TYPES.Nodup ∧
    ∀ e : EntityType, entityTypeName e ∈ ENTITY_TYPES := by
  refine ⟨by decide, by decide, ?_⟩
  intro e
  cases e <;> decide

/-- C8 counterexample: with no license present the result is not the label
itself — the f-string always appends a space (plus the empty annotation). -/
theorem c8_counterexample :
    psNoLicense.user_license = none ∧ psNoLicense.permission_set_license = none ∧
    psNoLicense.get_displayable_label ≠ psNoLicense.label :=
  ⟨rfl, rfl, by decide⟩

/-- C8 (amended): the displayable label is the label followed by a space
and the annotation of whichever license is present (Python-truthy), the
user license taking priority when both are; with neither present it is the
label followed by a single trailing space. -/
theorem c8_displayable_label (ps : PermissionSet) :
    (optStrTruthy ps.user_license = true →
      ps.get_displayable_label =
        ps.label ++ " " ++ ("(user_license=" ++ ps.user_license.getD "" ++ ")")) ∧
    (optStrTruthy ps.user_license = false → optStrTruthy ps.permission_set_license = true →
      ps.get_displayable_label =
        ps.label ++ " " ++ ("(permset_license=" ++ ps.permission_set_license.getD "" ++ ")")) ∧
    (optStrTruthy ps.user_license = false → optStrTruthy ps.permission_set_license = false →
      ps.get_displayable_label = ps.label ++ " ") := by
  refine ⟨fun h => ?_, fun h h2 => ?_, fun h h2 => ?_⟩
  · simp [PermissionSet.get_displayable_label, h]
  · simp [PermissionSet.get_displayable_label, h, h2]
  · simp [PermissionSet.get_displayable_label, h, h2]

/-- C8 witness: a bundle carrying both licenses is annotated with the user
license. -/
theorem c8_witness :
    optStrTruthy psBothLic.user_license = true ∧
    psBothLic.get_displayable_label =
      psBothLic.label ++ " " ++ ("(user_license=" ++ psBothLic.user_license.getD "" ++ ")") :=
  ⟨by decide, (c8_displayable_label psBothLic).1 (by decide)⟩

/-- C9: `jaccard` is a total function of its input (it is defined as a
Lean function), and both the empty input and any single-bundle input
return the empty list, since no pair `(i, j)` with `i < j` exists. -/
theorem c9_no_pairs :
    jaccard [] = [] ∧ ∀ ps : PermissionSet, jaccard [ps] = [] := by
  constructor
  · rw [jaccard, show pairList [] = [] from rfl, List.mergeSort_nil]
  · intro ps
    rw [jaccard, show pairList [ps] = [] from rfl, List.mergeSort_nil]

/-- C10: the common grants are disjoint from each side's unique grants,
the common and first-unique grants together are exactly the first bundle's
flattened grant set, and symmetrically for the second bundle. -/
theorem c10_partition (f : Finset ALL_PERMS_TYPE → List ALL_PERMS_TYPE)
    (d : JaccardDifference)
    (hc : EnumOf (f (grantSet d.permset1 ∩ grantSet d.permset2))
      (grantSet d.permset1 ∩ grantSet d.permset2))
    (h1 : EnumOf (f (grantSet d.permset1 \ grantSet d.permset2))
      (grantSet d.permset1 \ grantSet d.permset2))
    (h2 : EnumOf (f (grantSet d.permset2 \ grantSet d.permset1))
      (grantSet d.permset2 \ grantSet d.permset1)) :
    ((common_perms f d).toFinset ∩ (permset1_unique_perms f d).toFinset = ∅ ∧
      (common_perms f d).toFinset ∪ (permset1_unique_perms f d).toFinset =
        grantSet d.permset1) ∧
    ((common_perms f d).toFinset ∩ (permset2_unique_perms f d).toFinset = ∅ ∧
      (common_perms f d).toFinset ∪ (permset2_unique_perms f d).toFinset =
        grantSet d.permset2) := by
  rw [common_perms_toFinset f d hc, permset1_unique_perms_toFinset f d h1,
    permset2_unique_perms_toFinset f d h2]
  refine ⟨⟨?_, ?_⟩, ?_, ?_⟩ <;>
    · ext x
      simp only [Finset.mem_inter, Finset.mem_sdiff, Finset.mem_union,
        Finset.not_mem_empty, iff_false, Finset.mem_union]
      tauto

/-- C10 witness: the partition property at the concrete report `dPair`
with the enumeration oracle `enumW`. -/
theorem c10_witness :
    EnumOf (enumW (grantSet dPair.permset1 \ grantSet dPair.permset2))
      (grantSet dPair.permset1 \ grantSet dPair.permset2) ∧
    (common_perms enumW dPair).toFinset ∪ (permset1_unique_perms enumW dPair).toFinset =
      grantSet dPair.permset1 := by
  have hc : EnumOf (enumW (grantSet dPair.permset1 ∩ grantSet dPair.permset2))
      (grantSet dPair.permset1 ∩ grantSet dPair.permset2) := ⟨by decide, by decide⟩
  have h1 : EnumOf (enumW (grantSet dPair.permset1 \ grantSet dPair.permset2))
      (grantSet dPair.permset1 \ grantSet dPair.permset2) := ⟨by decide, by decide⟩
  have h2 : EnumOf (enumW (grantSet dPair.permset2 \ grantSet dPair.permset1))
      (grantSet dPair.permset2 \ grantSet dPair.permset1) := ⟨by decide, by decide⟩
  exact ⟨h1, ((c10_partition enumW dPair hc h1 h2).1).2⟩

end PermsetFinder
